import Mathlib

/-!
Verification of the Ego4d manifest-loading subsystem
(`ego4d/internal/validation/types.py`) and the lazy concatenated
video-dataset index (`ego4d/research/dataset.py`).

The Python code is shallowly embedded: Python values that can appear in a
decoded CSV cell become the inductive `PyVal`; declared dataclass field
types become `PyType`; raised exceptions become the error side of
`Except PyErr`.  `json.loads` is an external collaborator (the Python
standard library) and is therefore a parameter `jsonLoads` of the decoder.
-/

set_option autoImplicit false

/-- A `datetime.datetime` value (time-of-day fields included; no tz). -/
structure DateTime where
  year : Nat
  month : Nat
  day : Nat
  hour : Nat
  minute : Nat
  second : Nat
deriving DecidableEq, Repr

mutual
/-- Python runtime values that a decoded CSV cell can hold.  JSON trees
(`list`, `dict`) are given by the mutually defined spine types so that
equality stays decidable. -/
inductive PyVal where
  | none
  | bool (b : Bool)
  | int (n : Int)
  | float (q : Rat)
  | str (s : String)
  | datetime (d : DateTime)
  | list (xs : PyValList)
  | dict (entries : PyValPairs)
deriving DecidableEq, Repr

/-- A sequence of `PyVal`s (a decoded JSON array). -/
inductive PyValList where
  | nil
  | cons (x : PyVal) (xs : PyValList)
deriving DecidableEq, Repr

/-- Key/value pairs of a decoded JSON object, in insertion order. -/
inductive PyValPairs where
  | nil
  | cons (k v : PyVal) (xs : PyValPairs)
deriving DecidableEq, Repr
end

/-- Python exceptions raised by the embedded code, with the payloads the
spec talks about (missing file name, schema mismatch lists, duplicate key). -/
inductive PyErr where
  | keyError
  | indexError
  | typeError
  | attributeError
  | stopIteration
  | valueError
  | fileNotFoundError
  | assertionError
  | assertionFileMissing (name : String)
  | assertionSchemaMismatch (missing additional : List String)
  | assertionDuplicateKey (field : String) (key : PyVal)
deriving DecidableEq, Repr

/-- The declared type of a dataclass field, as the object stored in
`dataclasses.fields(...)[i].type`.  `other` covers every type object the
decoder does not test for; in this repository that includes the typing
generics `List[int]` and `List[str]`, which are *not* equal (`==`) to the
builtin `list`. -/
inductive PyType where
  | dict
  | defaultdict
  | list
  | datetime
  | int
  | float
  | str
  | bool
  | other (name : String)
deriving DecidableEq, Repr

/-- Python's `value.split(sep)` on a list of characters: split at every
occurrence of `sep`, keeping empty segments. -/
def pySplit (sep : Char) : List Char → List Char → List (List Char)
  | [], acc => [acc.reverse]
  | c :: cs, acc =>
    if c = sep then acc.reverse :: pySplit sep cs []
    else pySplit sep cs (c :: acc)

/-- `value.split(".")[0]`: the text before the first `'.'` (the whole
string when it has no dot). -/
def dotHead (s : String) : String :=
  ⟨(pySplit '.' s.data []).headD []⟩

def digitVal (c : Char) : Option Nat :=
  if c.isDigit then some (c.toNat - 48) else none

def twoDigits (a b : Char) : Option Nat := do
  let x ← digitVal a
  let y ← digitVal b
  pure (10 * x + y)

def fourDigits (a b c d : Char) : Option Nat := do
  let x ← twoDigits a b
  let y ← twoDigits c d
  pure (100 * x + y)

/-- `datetime.strptime(s, "%Y-%m-%d %H:%M:%S")`, modelled on zero-padded
inputs: exactly `YYYY-MM-DD HH:MM:SS` with in-range components, raising
`ValueError` otherwise. -/
def pyStrptime (s : String) : Except PyErr DateTime :=
  match s.data with
  | [y1, y2, y3, y4, '-', mo1, mo2, '-', d1, d2, ' ',
     h1, h2, ':', mi1, mi2, ':', s1, s2] =>
    match fourDigits y1 y2 y3 y4, twoDigits mo1 mo2, twoDigits d1 d2,
        twoDigits h1 h2, twoDigits mi1 mi2, twoDigits s1 s2 with
    | some y, some mo, some d, some h, some mi, some sec =>
      if 1 ≤ mo ∧ mo ≤ 12 ∧ 1 ≤ d ∧ d ≤ 31 ∧ h ≤ 23 ∧ mi ≤ 59 ∧ sec ≤ 61 then
        .ok ⟨y, mo, d, h, mi, sec⟩
      else .error .valueError
    | _, _, _, _, _, _ => .error .valueError
  | _ => .error .valueError

def digitsToNatAux : List Char → Nat → Option Nat
  | [], acc => some acc
  | c :: cs, acc =>
    match digitVal c with
    | some d => digitsToNatAux cs (10 * acc + d)
    | Option.none => Option.none

/-- A non-empty all-digit character run, as a number. -/
def digitsToNat : List Char → Option Nat
  | [] => Option.none
  | ds => digitsToNatAux ds 0

def signedDigits : List Char → Option Int
  | [] => Option.none
  | '-' :: ds => (digitsToNat ds).map (fun n => -(n : Int))
  | '+' :: ds => (digitsToNat ds).map (fun n => (n : Int))
  | ds => (digitsToNat ds).map (fun n => (n : Int))

/-- Python `int(s)`: optional sign followed by digits (whitespace and
underscore tolerance of CPython is not exercised here). -/
def pyIntOfString (s : String) : Option Int := signedDigits s.data

/-- Python `float(s)`, modelled on plain decimal literals
`[+-]digits[.digits]`. -/
def pyFloatOfString (s : String) : Option Rat :=
  match pySplit '.' s.data [] with
  | [intPart] => (signedDigits intPart).map (fun n => (n : Rat))
  | [intPart, fracPart] =>
    match signedDigits intPart, digitsToNat fracPart with
    | some n, some f =>
      let denom : Nat := 10 ^ fracPart.length
      some ((n : Rat) + (if n < 0 then -1 else 1) * (f : Rat) / (denom : Rat))
    | _, _ => Option.none
  | _ => Option.none

/-- `default_decode(value, datatype)` from
`ego4d/internal/validation/types.py`.  `jsonLoads` stands for the external
`json.loads`.  An unhandled `datatype` falls off the end of the Python
function, which returns `None`. -/
def default_decode (jsonLoads : String → Except PyErr PyVal)
    (value : String) (datatype : PyType) : Except PyErr PyVal :=
  match datatype with
  | .dict | .defaultdict =>
    if value.length == 0 then .ok (.dict .nil) else jsonLoads value
  | .list =>
    if value.length == 0 then .ok (.list .nil) else jsonLoads value
  | .datetime =>
    if value.length > 0 then (pyStrptime (dotHead value)).map .datetime
    else .ok (.datetime ⟨1900, 1, 1, 0, 0, 0⟩)
  | .int =>
    if value.length == 0 then .ok .none
    else match pyIntOfString value with
      | some n => .ok (.int n)
      | Option.none => .error .valueError
  | .float =>
    if value.length == 0 then .ok .none
    else match pyFloatOfString value with
      | some q => .ok (.float q)
      | Option.none => .error .valueError
  | .str =>
    if value.length == 0 then .ok .none else .ok (.str value)
  | .bool =>
    -- bool(value) on a str is True exactly when the string is non-empty
    if value.length == 0 then .ok .none else .ok (.bool (value.length != 0))
  | .other _ => .ok .none

deriving instance DecidableEq for Except

/-- A stand-in for `json.loads` used to instantiate closed statements;
none of the evaluated inputs reach the JSON path. -/
def jstub : String → Except PyErr PyVal := fun _ => .error .valueError

/-! ## Schema-checked table loader (`load_dataclass_dict_from_csv`) -/

/-- One dataclass field: its name, declared type, and the optional
`csv_decode_fn` from the field metadata (none of the repository's
dataclasses declare one, but the loader supports it). -/
structure FieldSpec where
  name : String
  ty : PyType
  csv_decode_fn : Option (String → PyType → Except PyErr PyVal)

/-- A decoded dataclass instance: field name to decoded value, in field
declaration order. -/
abbrev Record := List (String × PyVal)

/-- The loader's result shape: a `defaultdict(list)` mapping the value of
the key field to the records carrying it, in insertion order. -/
abbrev Table := List (PyVal × List Record)

/-- The per-field metadata the loader computes: resolved decoder, CSV
column index (absent when the CSV lacks the column), declared type. -/
structure FieldMeta where
  decode_fn : String → PyType → Except PyErr PyVal
  column_index : Option Nat
  ty : PyType

/-- `{header: i for i, header in enumerate(...)}` looked up at `name`:
a duplicated column name keeps its last index, a missing one gives
`None` (`dict.get`). -/
def columnIndexOf (header : List String) (name : String) : Option Nat :=
  ((header.enum.reverse).find? (fun p => p.2 == name)).map (fun p => p.1)

/-- `field_name_to_metadata` of the loader. -/
def metasOf (header : List String)
    (default_decode_fn : String → PyType → Except PyErr PyVal)
    (spec : List FieldSpec) : List (String × FieldMeta) :=
  spec.map (fun f =>
    (f.name,
      { decode_fn := f.csv_decode_fn.getD default_decode_fn
        column_index := columnIndexOf header f.name
        ty := f.ty }))

/-- Decode one CSV cell for one field: `line[meta["column_index"]]` (a
`None` index is a `TypeError`, a short row an `IndexError`) passed to the
field's decoder. -/
def decodeField (row : List String) (m : FieldMeta) : Except PyErr PyVal :=
  match m.column_index with
  | Option.none => .error .typeError
  | some ci =>
    match row.get? ci with
    | Option.none => .error .indexError
    | some raw => m.decode_fn raw m.ty

/-- `dataclass_class(**{...})`: decode every field of a row, in field
order, stopping at the first failing cell. -/
def decodeFields (row : List String) :
    List (String × FieldMeta) → Except PyErr Record
  | [] => .ok []
  | nm :: rest =>
    match decodeField row nm.2 with
    | .error e => .error e
    | .ok v =>
      match decodeFields row rest with
      | .error e => .error e
      | .ok r => .ok ((nm.1, v) :: r)

/-- `getattr(obj, dict_key_field)`. -/
def pyGetattr (r : Record) (field : String) : Except PyErr PyVal :=
  match r.find? (fun p => p.1 == field) with
  | some p => .ok p.2
  | Option.none => .error .attributeError

/-- The key of one decoded row (decode, then `getattr`). -/
def rowKey (metas : List (String × FieldMeta)) (field : String)
    (row : List String) : Except PyErr PyVal :=
  match decodeFields row metas with
  | .error e => .error e
  | .ok obj => pyGetattr obj field

/-- The keys of the data rows, in file order (defined when every row
decodes and carries the key field). -/
def rowKeys (metas : List (String × FieldMeta)) (field : String) :
    List (List String) → Except PyErr (List PyVal)
  | [] => .ok []
  | row :: rest =>
    match rowKey metas field row with
    | .error e => .error e
    | .ok k =>
      match rowKeys metas field rest with
      | .error e => .error e
      | .ok ks => .ok (k :: ks)

/-- `output[dict_key]` of a `defaultdict(list)`, read-only (`[]` when the
key is absent). -/
def dictGet (t : Table) (k : PyVal) : List Record :=
  match List.find? (fun e => e.1 == k) t with
  | some e => e.2
  | Option.none => []

/-- `output[dict_key].append(obj)`: extend the key's list, creating a new
last entry for a fresh key (Python dicts keep insertion order). -/
def dictAppend (t : Table) (k : PyVal) (v : Record) : Table :=
  match t with
  | [] => [(k, [v])]
  | e :: rest =>
    if e.1 == k then (e.1, e.2 ++ [v]) :: rest else e :: dictAppend rest k v

/-- The loader's row loop: decode each row in file order, append it under
its key, and with `unique_per_key` fail as soon as a key's list has more
than one element. -/
def loadRowsAux (metas : List (String × FieldMeta)) (keyField : String)
    (unique : Bool) : List (List String) → Table → Except PyErr Table
  | [], out => .ok out
  | row :: rest, out =>
    match decodeFields row metas with
    | .error e => .error e
    | .ok obj =>
      match pyGetattr obj keyField with
      | .error e => .error e
      | .ok k =>
        let out := dictAppend out k obj
        if unique && ((dictGet out k).length != 1) then
          .error (.assertionDuplicateKey keyField k)
        else
          loadRowsAux metas keyField unique rest out

/-- `csv_names == dn_names` as sets (`dedup` plays the role of `set`). -/
def schemaOk (header names : List String) : Bool :=
  header.dedup.all (fun h => decide (h ∈ names.dedup))
    && names.dedup.all (fun n => decide (n ∈ header.dedup))

/-- The schema fields missing from the CSV (`dn_names - csv_names`). -/
def schemaMissing (header names : List String) : List String :=
  names.dedup.filter (fun n => decide (n ∉ header.dedup))

/-- The CSV columns unknown to the schema (`csv_names - dn_names`). -/
def schemaAdditional (header names : List String) : List String :=
  header.dedup.filter (fun h => decide (h ∉ names.dedup))

/-- `load_dataclass_dict_from_csv`, with the file already read into rows
of cells (the `csv` module is an external collaborator).  The first row
is the header (`next(reader)`; an empty file raises `StopIteration`). -/
def load_dataclass_dict_from_csv (csv : List (List String))
    (spec : List FieldSpec) (dict_key_field : String) (unique_per_key : Bool)
    (default_decode_fn : String → PyType → Except PyErr PyVal) :
    Except PyErr Table :=
  match csv with
  | [] => .error .stopIteration
  | header :: rows =>
    let metas := metasOf header default_decode_fn spec
    let names := metas.map (fun m => m.1)
    if schemaOk header names then
      loadRowsAux metas dict_key_field unique_per_key rows []
    else
      .error (.assertionSchemaMismatch
        (schemaMissing header names) (schemaAdditional header names))

/-- The `Device` dataclass (`device_id: int`, `name: str`). -/
def deviceFields : List FieldSpec :=
  [⟨"device_id", .int, Option.none⟩, ⟨"name", .str, Option.none⟩]

/-! ## Manifest assemblers (`load_manifest`, `load_egoexo_manifest`) -/

def fld (n : String) (t : PyType) : FieldSpec := ⟨n, t, Option.none⟩

/-- `VideoMetadata`.  `video_scenario_ids` is annotated `List[int]`, a
typing generic that compares unequal to the builtin `list`, so the decoder
falls through on it. -/
def videoMetadataFields : List FieldSpec :=
  [fld "university_video_id" .str,
   fld "university_video_folder_path" .str,
   fld "number_video_components" .int,
   fld "start_date_recorded_utc" .datetime,
   fld "recording_participant_id" .str,
   fld "device_id" .int,
   fld "video_device_settings" .dict,
   fld "physical_setting_id" .str,
   fld "video_scenario_ids" (.other "List[int]")]

/-- `VideoComponentFile`. -/
def videoComponentFileFields : List FieldSpec :=
  [fld "university_video_id" .str,
   fld "video_component_relative_path" .str,
   fld "component_index" .int,
   fld "is_redacted" .bool,
   fld "start_date_recorded_utc" .datetime,
   fld "compression_settings" .dict,
   fld "includes_audio" .bool,
   fld "component_metadata" .dict,
   fld "deidentification_metadata" .dict]

/-- `AuxiliaryVideoComponentDataFile`. -/
def auxiliaryVideoComponentFields : List FieldSpec :=
  [fld "university_video_id" .str,
   fld "component_index" .int,
   fld "component_type_id" .int,
   fld "video_component_relative_path" .str]

/-- `Particpant` (sic). -/
def participantFields : List FieldSpec :=
  [fld "participant_id" .str,
   fld "participant_metadata" .dict]

/-- `SynchronizedVideos`. -/
def synchronizedVideosFields : List FieldSpec :=
  [fld "video_grouping_id" .str,
   fld "synchronization_metadata" .dict,
   fld "associated_videos" .dict]

/-- `PhysicalSetting`. -/
def physicalSettingFields : List FieldSpec :=
  [fld "setting_id" .str,
   fld "name" .str,
   fld "associated_matterport_scan_path" .str]

/-- `Annotations`. -/
def annotationsFields : List FieldSpec :=
  [fld "university_video_id" .str,
   fld "start_seconds" .float,
   fld "end_seconds" .float,
   fld "annotation_data" .dict]

/-- `CaptureMetadataEgoExo`. -/
def captureMetadataEgoExoFields : List FieldSpec :=
  [fld "university_capture_id" .str,
   fld "university_video_folder_path" .str,
   fld "number_videos" .int,
   fld "number_takes" .int,
   fld "post_surveys_relative_path" .str,
   fld "physical_setting_id" .int,
   fld "start_date_recorded_utc" .datetime,
   fld "additional_metadata" .dict]

/-- `TakeMetadataEgoExo` (`object_ids: List[str]` is a typing generic). -/
def takeMetadataEgoExoFields : List FieldSpec :=
  [fld "university_capture_id" .str,
   fld "take_id" .str,
   fld "scenario_id" .int,
   fld "is_narrated" .bool,
   fld "is_dropped" .bool,
   fld "take_start_seconds_aria" .float,
   fld "object_ids" (.other "List[str]"),
   fld "recording_participant_id" .str,
   fld "additional_metadata" .dict]

/-- `VideoMetadataEgoExo`. -/
def videoMetadataEgoExoFields : List FieldSpec :=
  [fld "university_capture_id" .str,
   fld "university_video_id" .str,
   fld "number_video_components" .int,
   fld "is_ego" .str,
   fld "has_walkaround" .str,
   fld "includes_audio" .str,
   fld "device_type" .int,
   fld "device_id" .str,
   fld "video_device_settings" .dict,
   fld "additional_metadata" .dict,
   fld "is_redacted" .bool]

/-- `VideoComponentFileEgoExo`. -/
def videoComponentFileEgoExoFields : List FieldSpec :=
  [fld "university_capture_id" .str,
   fld "university_video_id" .str,
   fld "video_component_relative_path" .str,
   fld "component_index" .int,
   fld "is_redacted" .bool]

/-- `ColmapMetadataEgoExo`. -/
def colmapMetadataEgoExoFields : List FieldSpec :=
  [fld "university_capture_id" .str,
   fld "colmap_configuration_id" .str,
   fld "config_relative_path" .str,
   fld "colmap_ran" .bool,
   fld "was_inspected" .bool,
   fld "is_final_configuration" .bool,
   fld "version" .str,
   fld "notes" .str]

/-- `ObjectMetadataEgoExo`. -/
def objectMetadataEgoExoFields : List FieldSpec :=
  [fld "university_object_id" .str,
   fld "object_name" .str,
   fld "object_relative_path" .str,
   fld "physical_setting_id" .str,
   fld "additional_metadata" .dict]

/-- `ParticipantMetadataEgoExo`: the Python source declares
`participant_metadata` twice; dataclass fields come from the
`__annotations__` dict, so the duplicate collapses into the first slot
and the class has four fields. -/
def participantMetadataEgoExoFields : List FieldSpec :=
  [fld "participant_id" .str,
   fld "participant_metadata" .dict,
   fld "collection_date" .datetime,
   fld "pre_survey_data" .dict]

/-- `PhysicalSettingEgoExo`. -/
def physicalSettingEgoExoFields : List FieldSpec :=
  [fld "setting_id" .str,
   fld "name" .str]

/-- `ExtraDataEgoExo`. -/
def extraDataEgoExoFields : List FieldSpec :=
  [fld "university_capture_id" .str,
   fld "take_id" .str,
   fld "annotation_data" .dict]

/-- How a manifest field holds a loaded table at runtime: either the
loader's key→list-of-records dict unchanged, or the key→single-record
dict obtained by the `{k: vs[0] for ...}` unwrapping. -/
inductive TableView where
  | asLists (t : Table)
  | asRecords (t : List (PyVal × Record))
deriving DecidableEq

/-- `true` exactly on a key→list-of-records view. -/
def TableView.isLists : TableView → Bool
  | .asLists _ => true
  | .asRecords _ => false

/-- The lengths of the per-key record lists of a key→list view. -/
def TableView.listLengths : TableView → List Nat
  | .asLists t => t.map (fun e => e.2.length)
  | .asRecords _ => []

/-- `{k: vs[0] for k, vs in d.items()}` (`vs[0]` of an empty list would
raise `IndexError`; the loader never produces one). -/
def unwrapTable (t : Table) : Except PyErr (List (PyVal × Record)) :=
  t.mapM (fun e =>
    match e.2 with
    | v :: _ => .ok (e.1, v)
    | [] => .error (PyErr.indexError))

/-- A manifest directory: relative file name to parsed CSV rows.
`ls_relative` and `pathmgr.open` are external collaborators; the
directory listing is the map's domain. -/
abbrev Directory := List (String × List (List String))

def lsRel (dir : Directory) : List String := dir.map (fun e => e.1)

def openCsvFile (dir : Directory) (name : String) :
    Except PyErr (List (List String)) :=
  match List.find? (fun e => e.1 == name) dir with
  | some e => .ok e.2
  | Option.none => .error .fileNotFoundError

/-- `_check_file_exists` of the assemblers. -/
def requireFile (available : List String) (name : String) :
    Except PyErr Unit :=
  if name ∈ available then .ok () else .error (.assertionFileMissing name)

/-- The core `Manifest` dataclass.  The four unique-keyed tables are
stored unwrapped (key→record), the multi-keyed ones as key→list. -/
structure ManifestCore where
  videos : TableView
  video_components : TableView
  aux_components : TableView
  participants : TableView
  sync_videos : TableView
  physical_setting : TableView
  annotations : TableView
deriving DecidableEq

/-- The `ManifestEgoExo` dataclass.  Fields that receive `None` when the
file is absent are `Option`s. -/
structure ManifestEgoExo where
  captures : TableView
  takes : TableView
  videos : TableView
  video_components : TableView
  colmap : Option TableView
  physical_setting : Option TableView
  objects : Option TableView
  participants : Option TableView
  extra_data : Option TableView
deriving DecidableEq

/-- `load_manifest(manifest_dir)`: required `video_metadata.csv` and
`video_component_file.csv`, optional auxiliary/participant (three
candidate names, first found wins)/synchronized/physical-setting/
annotation tables, then unique-keyed tables unwrapped via
`{k: vs[0] for ...}`. -/
def load_manifest (jsonLoads : String → Except PyErr PyVal)
    (dir : Directory) : Except PyErr ManifestCore := do
  let available := lsRel dir
  let dd := default_decode jsonLoads
  requireFile available "video_metadata.csv"
  let csv ← openCsvFile dir "video_metadata.csv"
  let video_metadata_dict ←
    load_dataclass_dict_from_csv csv videoMetadataFields
      "university_video_id" true dd
  requireFile available "video_component_file.csv"
  let csv ← openCsvFile dir "video_component_file.csv"
  let video_components_dict ←
    load_dataclass_dict_from_csv csv videoComponentFileFields
      "university_video_id" false dd
  let auxiliary_video_component_dict ←
    if "auxiliary_video_component_data_file.csv" ∈ available then do
      let csv ← openCsvFile dir "auxiliary_video_component_data_file.csv"
      load_dataclass_dict_from_csv csv auxiliaryVideoComponentFields
        "university_video_id" false dd
    else pure []
  let participant_dict ←
    match List.find? (fun n => n ∈ available)
        ["participant_data.csv", "participant.csv", "participant_metadata.csv"] with
    | some name => do
      let csv ← openCsvFile dir name
      load_dataclass_dict_from_csv csv participantFields
        "participant_id" true dd
    | Option.none => pure []
  let synchronized_video_dict ←
    if "synchronized_videos.csv" ∈ available then do
      let csv ← openCsvFile dir "synchronized_videos.csv"
      load_dataclass_dict_from_csv csv synchronizedVideosFields
        "video_grouping_id" true dd
    else pure []
  let physical_setting_dict ←
    if "physical_setting.csv" ∈ available then do
      let csv ← openCsvFile dir "physical_setting.csv"
      load_dataclass_dict_from_csv csv physicalSettingFields
        "setting_id" true dd
    else pure []
  let annotations_dict ←
    if "annotations.csv" ∈ available then do
      let csv ← openCsvFile dir "annotations.csv"
      load_dataclass_dict_from_csv csv annotationsFields
        "university_video_id" false dd
    else pure []
  let videos ← unwrapTable video_metadata_dict
  let participants ← unwrapTable participant_dict
  let sync_videos ← unwrapTable synchronized_video_dict
  let physical_setting ← unwrapTable physical_setting_dict
  pure
    { videos := .asRecords videos
      participants := .asRecords participants
      sync_videos := .asRecords sync_videos
      physical_setting := .asRecords physical_setting
      video_components := .asLists video_components_dict
      aux_components := .asLists auxiliary_video_component_dict
      annotations := .asLists annotations_dict }

/-- `load_egoexo_manifest(manifest_dir)`.  Unlike `load_manifest`, the
returned `ManifestEgoExo` receives every loaded dict *unchanged*: the
tables loaded with `unique_per_key=True` (captures, objects,
physical_setting, participants) are still key→list-of-records dicts. -/
def load_egoexo_manifest (jsonLoads : String → Except PyErr PyVal)
    (dir : Directory) : Except PyErr ManifestEgoExo := do
  let available := lsRel dir
  let dd := default_decode jsonLoads
  requireFile available "capture_metadata.csv"
  let csv ← openCsvFile dir "capture_metadata.csv"
  let capture_metadata ←
    load_dataclass_dict_from_csv csv captureMetadataEgoExoFields
      "university_capture_id" true dd
  requireFile available "take_metadata.csv"
  let csv ← openCsvFile dir "take_metadata.csv"
  let take_metadata ←
    load_dataclass_dict_from_csv csv takeMetadataEgoExoFields
      "university_capture_id" false dd
  requireFile available "video_metadata.csv"
  let csv ← openCsvFile dir "video_metadata.csv"
  let video_metadata ←
    load_dataclass_dict_from_csv csv videoMetadataEgoExoFields
      "university_capture_id" false dd
  requireFile available "video_component_file.csv"
  let csv ← openCsvFile dir "video_component_file.csv"
  let video_component_metadata ←
    load_dataclass_dict_from_csv csv videoComponentFileEgoExoFields
      "university_capture_id" false dd
  let colmap_metadata ←
    if "colmap_metadata.csv" ∈ available then do
      let csv ← openCsvFile dir "colmap_metadata.csv"
      let t ← load_dataclass_dict_from_csv csv colmapMetadataEgoExoFields
        "university_capture_id" false dd
      pure (some t)
    else pure Option.none
  let object_metadata ←
    if "object_metadata.csv" ∈ available then do
      let csv ← openCsvFile dir "object_metadata.csv"
      let t ← load_dataclass_dict_from_csv csv objectMetadataEgoExoFields
        "university_object_id" true dd
      pure (some t)
    else pure Option.none
  let physical_setting ←
    if "physical_setting.csv" ∈ available then do
      let csv ← openCsvFile dir "physical_setting.csv"
      let t ← load_dataclass_dict_from_csv csv physicalSettingEgoExoFields
        "setting_id" true dd
      pure (some t)
    else pure Option.none
  let participant_metadata ←
    if "participant_metadata.csv" ∈ available then do
      let csv ← openCsvFile dir "participant_metadata.csv"
      let t ← load_dataclass_dict_from_csv csv participantMetadataEgoExoFields
        "participant_id" true dd
      pure (some t)
    else pure Option.none
  let extra_data ←
    if "extra_data.csv" ∈ available then do
      let csv ← openCsvFile dir "extra_data.csv"
      let t ← load_dataclass_dict_from_csv csv extraDataEgoExoFields
        "university_capture_id" false dd
      pure (some t)
    else pure Option.none
  pure
    { captures := .asLists capture_metadata
      takes := .asLists take_metadata
      videos := .asLists video_metadata
      video_components := .asLists video_component_metadata
      colmap := colmap_metadata.map .asLists
      physical_setting := physical_setting.map .asLists
      objects := object_metadata.map .asLists
      participants := participant_metadata.map .asLists
      extra_data := extra_data.map .asLists }

/-- A concrete ego-exo manifest directory: all four required tables plus
the optional unique-keyed object/physical-setting/participant tables, one
row each, with empty cells for JSON/timestamp/float fields. -/
def egoexoDir : Directory :=
  [("capture_metadata.csv",
    [["university_capture_id", "university_video_folder_path",
      "number_videos", "number_takes", "post_surveys_relative_path",
      "physical_setting_id", "start_date_recorded_utc",
      "additional_metadata"],
     ["cap1", "folder", "1", "1", "surveys", "7", "", ""]]),
   ("take_metadata.csv",
    [["university_capture_id", "take_id", "scenario_id", "is_narrated",
      "is_dropped", "take_start_seconds_aria", "object_ids",
      "recording_participant_id", "additional_metadata"],
     ["cap1", "t1", "3", "y", "", "", "", "p1", ""]]),
   ("video_metadata.csv",
    [["university_capture_id", "university_video_id",
      "number_video_components", "is_ego", "has_walkaround",
      "includes_audio", "device_type", "device_id",
      "video_device_settings", "additional_metadata", "is_redacted"],
     ["cap1", "v1", "1", "y", "y", "y", "2", "d1", "", "", ""]]),
   ("video_component_file.csv",
    [["university_capture_id", "university_video_id",
      "video_component_relative_path", "component_index", "is_redacted"],
     ["cap1", "v1", "rel", "0", ""]]),
   ("object_metadata.csv",
    [["university_object_id", "object_name", "object_relative_path",
      "physical_setting_id", "additional_metadata"],
     ["obj1", "cup", "rel", "ps1", ""]]),
   ("physical_setting.csv",
    [["setting_id", "name"],
     ["ps1", "kitchen"]]),
   ("participant_metadata.csv",
    [["participant_id", "participant_metadata", "collection_date",
      "pre_survey_data"],
     ["p1", "", "", ""]])]

/-- A concrete core manifest directory: the two required tables, one row
each; every optional table is absent. -/
def coreDir : Directory :=
  [("video_metadata.csv",
    [["university_video_id", "university_video_folder_path",
      "number_video_components", "start_date_recorded_utc",
      "recording_participant_id", "device_id", "video_device_settings",
      "physical_setting_id", "video_scenario_ids"],
     ["vid1", "folder", "1", "", "p1", "4", "", "ps1", ""]]),
   ("video_component_file.csv",
    [["university_video_id", "video_component_relative_path",
      "component_index", "is_redacted", "start_date_recorded_utc",
      "compression_settings", "includes_audio", "component_metadata",
      "deidentification_metadata"],
     ["vid1", "rel", "0", "", "", "", "", "", ""]])]

/-! ## Lazy concatenated index (`VideoDataset`, `ego4d/research/dataset.py`) -/

/-- Code-point comparison of strings (`a <= b` in Python): lexicographic
on the character sequences. -/
def charListLe : List Char → List Char → Bool
  | [], _ => true
  | _ :: _, [] => false
  | a :: as, b :: bs =>
    if a.toNat < b.toNat then true
    else if b.toNat < a.toNat then false
    else charListLe as bs

def pyStrLe (a b : String) : Bool := charListLe a.data b.data

def orderedInsertStr (x : String) : List String → List String
  | [] => [x]
  | y :: ys => if pyStrLe x y then x :: y :: ys else y :: orderedInsertStr x ys

/-- `sorted(paths)`: a stable sort in lexicographic order. -/
def pySortStrings : List String → List String
  | [] => []
  | x :: xs => orderedInsertStr x (pySortStrings xs)

/-- `bisect.bisect_left(a, x)` on a sorted list: the number of leading
entries `< x` (the left insertion point). -/
def bisectLeft (a : List Int) (x : Int) : Nat :=
  (a.takeWhile (fun v => v < x)).length

/-- Python list indexing `l[i]`, negative indices counting from the
end. -/
def pyListGet {α : Type} (l : List α) (i : Int) : Option α :=
  if 0 ≤ i then l.get? i.toNat
  else
    let j := (l.length : Int) + i
    if 0 ≤ j then l.get? j.toNat else Option.none

/-- `self.conts[k]` (dict lookup). -/
def contsGet {Cont : Type} (conts : List (Int × String × Option Cont))
    (k : Int) : Option (String × Option Cont) :=
  (List.find? (fun e => e.1 == k) conts).map (fun e => e.2)

/-- `self.conts[k] = v`: replace the entry when the key exists, append
otherwise. -/
def contsSet {Cont : Type} (conts : List (Int × String × Option Cont))
    (k : Int) (v : String × Option Cont) : List (Int × String × Option Cont) :=
  match conts with
  | [] => [(k, v)]
  | e :: rest => if e.1 == k then (k, v) :: rest else e :: contsSet rest k v

/-- The `VideoDataset` state: sorted paths, the container-handle dict
`idx ↦ (path, handle-or-None)`, and the cumulative offset table
`fs_cumsum = [0] + cumsum(counts)`. -/
structure VideoDataset (Cont : Type) where
  paths : List String
  conts : List (Int × String × Option Cont)
  fs_cumsum : List Int
deriving DecidableEq

/-- Running prefix sums of `torch.cumsum` (same length as the input). -/
def cumAux (acc : Int) : List Nat → List Int
  | [] => []
  | n :: ns => (acc + n) :: cumAux (acc + n) ns

/-- `[0] + torch.cumsum(counts).tolist()`. -/
def cumsumTable (counts : List Nat) : List Int := 0 :: cumAux 0 counts

/-- `paths_to_n_frames[path]` as an optional lookup. -/
def p2nGet (p2n : List (String × Nat)) (p : String) : Option Nat :=
  (List.find? (fun e => e.1 == p) p2n).map (fun e => e.2)

/-- `[paths_to_n_frames[path] for path in paths]` (a missing path raises
`KeyError`). -/
def mapCounts (p2n : List (String × Nat)) : List String → Except PyErr (List Nat)
  | [] => .ok []
  | p :: ps =>
    match p2nGet p2n p with
    | some n =>
      match mapCounts p2n ps with
      | .error e => .error e
      | .ok ns => .ok (n :: ns)
    | Option.none => .error PyErr.keyError

/-- `min(len(ct), max_num_frames_per_video) if max_num_frames_per_video
else len(ct)`.  The Python condition is a *truthiness* test: both `None`
and `0` are falsy, so a configured maximum of 0 applies no cap. -/
def capCount (maxFrames : Option Nat) (n : Nat) : Nat :=
  match maxFrames with
  | some m => if m = 0 then n else min n m
  | Option.none => n

/-- `VideoDataset.__init__`.  `openCont` is `video_class(p, **kwargs)` and
`contLen` is `len(container)`.  With no `paths_to_n_frames` every
container is opened eagerly and its count capped; with a supplied mapping
(`KeyError` if a path is missing from it) the counts are used as given
and every handle starts absent.  (The `breakpoint()` in the eager branch
is an interactive debugger no-op.) -/
def videoDatasetInit {Cont : Type} (paths : List String)
    (openCont : String → Cont) (contLen : Cont → Nat)
    (max_num_frames_per_video : Option Nat)
    (paths_to_n_frames : Option (List (String × Nat))) :
    Except PyErr (VideoDataset Cont) :=
  let sorted := pySortStrings paths
  match paths_to_n_frames with
  | Option.none =>
    let handles := sorted.map (fun p => (p, openCont p))
    let counts := handles.map (fun h => capCount max_num_frames_per_video (contLen h.2))
    .ok
      { paths := sorted
        conts := (handles.enum).map (fun e => ((e.1 : Int), e.2.1, some e.2.2))
        fs_cumsum := cumsumTable counts }
  | some p2n =>
    match mapCounts p2n sorted with
    | .error e => .error e
    | .ok counts =>
      .ok
        { paths := sorted
          conts := (sorted.enum).map (fun e => ((e.1 : Int), e.2, Option.none))
          fs_cumsum := cumsumTable counts }

/-- `cont_idx = bisect.bisect_left(self.fs_cumsum, i + 1) - 1`. -/
def resolveIdx {Cont : Type} (d : VideoDataset Cont) (i : Int) : Int :=
  (bisectLeft d.fs_cumsum (i + 1) : Int) - 1

/-- `VideoDataset.__getitem__(i)`: resolve the container index, open the
container on first access (caching the handle), and delegate to
`c[i - fs_cumsum[cont_idx]]` (`contGet`).  The returned state carries the
updated handle cache. -/
def videoDatasetGetItem {Cont Item : Type} (openCont : String → Cont)
    (contGet : Cont → Int → Item) (d : VideoDataset Cont) (i : Int) :
    Except PyErr (Item × VideoDataset Cont) :=
  let cont_idx := resolveIdx d i
  match contsGet d.conts cont_idx with
  | Option.none => .error .keyError
  | some pc =>
    let conts' :=
      match pc.2 with
      | Option.none => contsSet d.conts cont_idx (pc.1, some (openCont pc.1))
      | some _ => d.conts
    match contsGet conts' cont_idx with
    | Option.none => .error .keyError
    | some pc' =>
      match pc'.2 with
      | Option.none => .error .assertionError
      | some c =>
        match pyListGet d.fs_cumsum cont_idx with
        | Option.none => .error .indexError
        | some base => .ok (contGet c (i - base), { d with conts := conts' })

/-- `VideoDataset.__len__`: `self.fs_cumsum[-1]`. -/
def videoDatasetLen {Cont : Type} (d : VideoDataset Cont) : Except PyErr Int :=
  match pyListGet d.fs_cumsum (-1) with
  | some v => .ok v
  | Option.none => .error .indexError

/-- Container ids for the three test paths. -/
def testOpen (p : String) : Nat := if p = "a" then 0 else if p = "b" then 1 else 2

/-- Container sizes `[3, 5, 2]` for ids `0, 1, 2`. -/
def testLen (c : Nat) : Nat := if c = 0 then 3 else if c = 1 then 5 else 2

/-- `(container id, local index)` as the delegated item. -/
def testGet (c : Nat) (i : Int) : Nat × Int := (c, i)

/-- The eager-mode dataset over containers of sizes `[3, 5, 2]`. -/
def testDS : VideoDataset Nat :=
  { paths := ["a", "b", "c"]
    conts := [(0, "a", some 0), (1, "b", some 1), (2, "c", some 2)]
    fs_cumsum := [0, 3, 8, 10] }

/-- The same dataset built in precomputed-count mode: no handle is open. -/
def testDSLazy : VideoDataset Nat :=
  { paths := ["a", "b", "c"]
    conts := [(0, "a", Option.none), (1, "b", Option.none), (2, "c", Option.none)]
    fs_cumsum := [0, 3, 8, 10] }

/-! ## Helper lemmas -/

theorem string_data_append (a b : String) : (a ++ b).data = a.data ++ b.data := by
  cases a; cases b; rfl

theorem string_ne_empty_iff (s : String) : s ≠ "" ↔ s.data ≠ [] := by
  cases s with
  | mk data =>
    have h : (String.mk data = "") ↔ data = [] := by
      constructor
      · intro h
        exact congrArg String.data h
      · intro h
        rw [h]
    exact not_congr h

theorem string_length_ne_zero (s : String) (h : s ≠ "") : s.length ≠ 0 := by
  cases s with
  | mk data =>
    have hd : data ≠ [] := (string_ne_empty_iff _).1 h
    simpa [String.length, List.length_eq_zero] using hd

theorem pySplit_no_sep (sep : Char) (cs acc : List Char) (h : sep ∉ cs) :
    pySplit sep cs acc = [acc.reverse ++ cs] := by
  induction cs generalizing acc with
  | nil => simp [pySplit]
  | cons c cs ih =>
    have hc : c ≠ sep := fun he => h (he ▸ List.mem_cons_self _ _)
    have hcs : sep ∉ cs := fun hm => h (List.mem_cons_of_mem _ hm)
    simp [pySplit, hc, ih _ hcs]

theorem pySplit_first (sep : Char) (cs rest acc : List Char) (h : sep ∉ cs) :
    pySplit sep (cs ++ sep :: rest) acc
      = (acc.reverse ++ cs) :: pySplit sep rest [] := by
  induction cs generalizing acc with
  | nil => simp [pySplit]
  | cons c cs ih =>
    have hc : c ≠ sep := fun he => h (he ▸ List.mem_cons_self _ _)
    have hcs : sep ∉ cs := fun hm => h (List.mem_cons_of_mem _ hm)
    simp [pySplit, hc, ih _ hcs]

theorem dotHead_of_no_dot (s : String) (h : '.' ∉ s.data) : dotHead s = s := by
  cases s with
  | mk data =>
    simp [dotHead, pySplit_no_sep '.' data [] h]

theorem dotHead_append (s frac : String) (h : '.' ∉ s.data) :
    dotHead (s ++ "." ++ frac) = s := by
  cases s with
  | mk data =>
    have hdot : (".": String).data = ['.'] := rfl
    have hdata : ((String.mk data) ++ "." ++ frac).data = data ++ '.' :: frac.data := by
      rw [string_data_append, string_data_append, hdot, List.append_assoc]
      rfl
    simp [dotHead, hdata, pySplit_first '.' data frac.data [] h]

theorem default_decode_datetime_nonempty (jl : String → Except PyErr PyVal)
    (s : String) (hs : s ≠ "") :
    default_decode jl s .datetime = (pyStrptime (dotHead s)).map PyVal.datetime := by
  have hlen : 0 < s.length := Nat.pos_of_ne_zero (string_length_ne_zero s hs)
  simp only [default_decode]
  rw [if_pos hlen]

/-- C7: `default_decode` of the empty string gives `{}` for dict types,
`[]` for the builtin list type, `None` for the scalar types
str/int/float/bool, and the fixed epoch default `datetime(1900, 1, 1)` for
timestamps; a non-empty timestamp is parsed against the single fixed
format after discarding everything from the first `'.'` on, so appending
a fractional-seconds suffix never changes the decoded value. -/
theorem claim_decode_empty_defaults_and_timestamp_format :
    (∀ jl : String → Except PyErr PyVal,
      default_decode jl "" .dict = .ok (.dict .nil) ∧
      default_decode jl "" .defaultdict = .ok (.dict .nil) ∧
      default_decode jl "" .list = .ok (.list .nil) ∧
      default_decode jl "" .str = .ok .none ∧
      default_decode jl "" .int = .ok .none ∧
      default_decode jl "" .float = .ok .none ∧
      default_decode jl "" .bool = .ok .none ∧
      default_decode jl "" .datetime = .ok (.datetime ⟨1900, 1, 1, 0, 0, 0⟩))
    ∧ (∀ (jl : String → Except PyErr PyVal) (s : String), s ≠ "" →
        default_decode jl s .datetime = (pyStrptime (dotHead s)).map PyVal.datetime)
    ∧ (∀ (jl : String → Except PyErr PyVal) (s frac : String),
        s ≠ "" → '.' ∉ s.data →
        default_decode jl (s ++ "." ++ frac) .datetime
          = default_decode jl s .datetime)
    ∧ (∀ jl : String → Except PyErr PyVal,
        default_decode jl "2021-01-02 03:04:05.123456" .datetime
          = .ok (.datetime ⟨2021, 1, 2, 3, 4, 5⟩)) := by
  refine ⟨fun jl => ⟨rfl, rfl, rfl, rfl, rfl, rfl, rfl, rfl⟩,
    default_decode_datetime_nonempty, ?_, fun jl => rfl⟩
  intro jl s frac hs hdot
  have hne : (s ++ "." ++ frac) ≠ "" := by
    rw [string_ne_empty_iff, string_data_append, string_data_append]
    simp
  rw [default_decode_datetime_nonempty jl _ hne,
    default_decode_datetime_nonempty jl s hs,
    dotHead_append s frac hdot, dotHead_of_no_dot s hdot]

/-- Witness for C7: the timestamp `2021-01-02 03:04:05` decodes to the
same value with and without a fractional suffix. -/
theorem claim_decode_empty_defaults_and_timestamp_format_witness :
    default_decode jstub "2021-01-02 03:04:05.123456" .datetime
      = default_decode jstub "2021-01-02 03:04:05" .datetime :=
  claim_decode_empty_defaults_and_timestamp_format.2.2.1 jstub
    "2021-01-02 03:04:05" "123456" (by decide) (by decide)

/-- C9: every non-empty string decodes to `True` under the declared type
`bool` — the value is passed through Python's `bool` constructor, which is
truthy on every non-empty string — and no conversion error is raised. -/
theorem claim_decode_bool_nonempty_true
    (jl : String → Except PyErr PyVal) (s : String) (hs : s ≠ "") :
    default_decode jl s .bool = .ok (.bool true) := by
  have hlen : s.length ≠ 0 := string_length_ne_zero s hs
  have hb : (s.length == 0) = false := by
    simpa using hlen
  simp [default_decode, hb, hlen]

/-- Witness for C9: `"False"` and `"0"` both decode to `True`. -/
theorem claim_decode_bool_nonempty_true_witness :
    default_decode jstub "False" .bool = .ok (.bool true) ∧
    default_decode jstub "0" .bool = .ok (.bool true) :=
  ⟨claim_decode_bool_nonempty_true jstub "False" (by decide),
   claim_decode_bool_nonempty_true jstub "0" (by decide)⟩

/-- C10: a declared field type outside the handled set (every `PyType.other`,
e.g. the typing generics `List[int]`/`List[str]`) makes `default_decode`
fall off the end of the function and return `None` for every input string,
raising no error. -/
theorem claim_decode_unhandled_type_silent_none :
    ∀ (jl : String → Except PyErr PyVal) (value tyname : String),
      default_decode jl value (.other tyname) = .ok .none :=
  fun _ _ _ => rfl

theorem metasOf_names (header : List String)
    (dfn : String → PyType → Except PyErr PyVal) (spec : List FieldSpec) :
    (metasOf header dfn spec).map (fun m => m.1) = spec.map FieldSpec.name := by
  simp [metasOf, List.map_map]

theorem schemaOk_iff (header names : List String) :
    schemaOk header names = true ↔ (∀ x, x ∈ header ↔ x ∈ names) := by
  simp only [schemaOk, Bool.and_eq_true, List.all_eq_true, decide_eq_true_eq,
    List.mem_dedup]
  constructor
  · intro h x
    exact ⟨fun hx => h.1 x hx, fun hx => h.2 x hx⟩
  · intro h
    exact ⟨fun x hx => (h x).1 hx, fun x hx => (h x).2 hx⟩

theorem mem_schemaMissing (header names : List String) (x : String) :
    x ∈ schemaMissing header names ↔ x ∈ names ∧ x ∉ header := by
  simp [schemaMissing, List.mem_filter, List.mem_dedup]

theorem mem_schemaAdditional (header names : List String) (x : String) :
    x ∈ schemaAdditional header names ↔ x ∈ header ∧ x ∉ names := by
  simp [schemaAdditional, List.mem_filter, List.mem_dedup]

theorem pyGetattr_error (r : Record) (f : String) (e : PyErr)
    (h : pyGetattr r f = .error e) : e = .attributeError := by
  unfold pyGetattr at h
  split at h
  · cases h
  · cases h
    rfl

theorem decodeField_ne_schema (row : List String) (m : FieldMeta)
    (hm : ∀ v t miss add, m.decode_fn v t ≠ .error (.assertionSchemaMismatch miss add)) :
    ∀ miss add, decodeField row m ≠ .error (.assertionSchemaMismatch miss add) := by
  intro miss add h
  unfold decodeField at h
  split at h
  · simp at h
  · split at h
    · simp at h
    · exact hm _ _ miss add h

theorem decodeFields_ne_schema (row : List String)
    (metas : List (String × FieldMeta))
    (hm : ∀ nm ∈ metas, ∀ v t miss add,
      nm.2.decode_fn v t ≠ .error (.assertionSchemaMismatch miss add)) :
    ∀ miss add, decodeFields row metas ≠ .error (.assertionSchemaMismatch miss add) := by
  induction metas with
  | nil => intro miss add h; cases h
  | cons nm rest ih =>
    intro miss add h
    unfold decodeFields at h
    split at h
    · rename_i e heq
      injection h with h2
      exact decodeField_ne_schema row nm.2
        (hm nm (List.mem_cons_self _ _)) miss add (h2 ▸ heq)
    · rename_i v heq
      split at h
      · rename_i e2 heq2
        injection h with h2
        exact ih (fun nm' h' => hm nm' (List.mem_cons_of_mem _ h')) miss add (h2 ▸ heq2)
      · simp at h

theorem loadRowsAux_ne_schema (metas : List (String × FieldMeta))
    (kf : String) (u : Bool)
    (hm : ∀ nm ∈ metas, ∀ v t miss add,
      nm.2.decode_fn v t ≠ .error (.assertionSchemaMismatch miss add)) :
    ∀ (rows : List (List String)) (out : Table) (miss add : List String),
      loadRowsAux metas kf u rows out ≠ .error (.assertionSchemaMismatch miss add) := by
  intro rows
  induction rows with
  | nil => intro out miss add h; cases h
  | cons row rest ih =>
    intro out miss add h
    unfold loadRowsAux at h
    split at h
    · rename_i e heq
      injection h with h2
      exact decodeFields_ne_schema row metas hm miss add (h2 ▸ heq)
    · rename_i obj heq
      split at h
      · rename_i e2 heq2
        injection h with h2
        have := pyGetattr_error obj kf e2 heq2
        rw [h2] at this
        cases this
      · rename_i k heq2
        dsimp only at h
        split at h
        · simp at h
        · exact ih (dictAppend out k obj) miss add h

theorem pyStrptime_error (s : String) (e : PyErr)
    (h : pyStrptime s = .error e) : e = .valueError := by
  unfold pyStrptime at h
  split at h
  · split at h
    · split at h
      · cases h
      · cases h
        rfl
    · cases h
      rfl
  · cases h
    rfl

theorem default_decode_ne_schema (jl : String → Except PyErr PyVal)
    (hjl : ∀ s miss add, jl s ≠ .error (.assertionSchemaMismatch miss add))
    (v : String) (t : PyType) (miss add : List String) :
    default_decode jl v t ≠ .error (.assertionSchemaMismatch miss add) := by
  intro h
  cases t with
  | dict =>
    simp only [default_decode] at h
    split at h
    · simp at h
    · exact hjl v miss add h
  | defaultdict =>
    simp only [default_decode] at h
    split at h
    · simp at h
    · exact hjl v miss add h
  | list =>
    simp only [default_decode] at h
    split at h
    · simp at h
    · exact hjl v miss add h
  | datetime =>
    simp only [default_decode] at h
    split at h
    · cases hp : pyStrptime (dotHead v) with
      | error e =>
        rw [hp] at h
        simp only [Except.map] at h
        injection h with h2
        have he := pyStrptime_error _ _ hp
        rw [h2] at he
        cases he
      | ok d =>
        rw [hp] at h
        simp [Except.map] at h
    · simp at h
  | int =>
    simp only [default_decode] at h
    split at h
    · simp at h
    · split at h <;> simp at h
  | float =>
    simp only [default_decode] at h
    split at h
    · simp at h
    · split at h <;> simp at h
  | str =>
    simp only [default_decode] at h
    split at h <;> simp at h
  | bool =>
    simp only [default_decode] at h
    split at h <;> simp at h
  | other n =>
    simp [default_decode] at h

theorem metasOf_decode_fn_sound (header : List String)
    (dfn : String → PyType → Except PyErr PyVal) (spec : List FieldSpec)
    (hdf : ∀ f ∈ spec, ∀ v t miss add,
      (f.csv_decode_fn.getD dfn) v t ≠ .error (.assertionSchemaMismatch miss add)) :
    ∀ nm ∈ metasOf header dfn spec, ∀ v t miss add,
      nm.2.decode_fn v t ≠ .error (.assertionSchemaMismatch miss add) := by
  intro nm hnm
  unfold metasOf at hnm
  obtain ⟨f, hf, rfl⟩ := List.mem_map.mp hnm
  exact hdf f hf

/-- C5: when the CSV header's column-name set differs from the record
type's field-name set, loading fails with the schema-mismatch error whose
two lists are exactly the fields missing from the CSV and the columns
unknown to the schema, and the failure is independent of the data rows
(no row is decoded); when the two sets agree, no schema-mismatch error is
ever produced (for decoders that do not themselves raise it, as
`default_decode` never does). -/
theorem claim_schema_mismatch_two_lists (header : List String)
    (rows : List (List String)) (spec : List FieldSpec) (kf : String)
    (u : Bool) (dfn : String → PyType → Except PyErr PyVal) :
    (¬ (∀ x, x ∈ header ↔ x ∈ spec.map FieldSpec.name) →
      ∃ miss add,
        load_dataclass_dict_from_csv (header :: rows) spec kf u dfn
          = .error (.assertionSchemaMismatch miss add) ∧
        (∀ x, x ∈ miss ↔ x ∈ spec.map FieldSpec.name ∧ x ∉ header) ∧
        (∀ x, x ∈ add ↔ x ∈ header ∧ x ∉ spec.map FieldSpec.name) ∧
        load_dataclass_dict_from_csv (header :: rows) spec kf u dfn
          = load_dataclass_dict_from_csv [header] spec kf u dfn)
    ∧ ((∀ x, x ∈ header ↔ x ∈ spec.map FieldSpec.name) →
      (∀ f ∈ spec, ∀ v t miss add,
        (f.csv_decode_fn.getD dfn) v t ≠ .error (.assertionSchemaMismatch miss add)) →
      ∀ miss add,
        load_dataclass_dict_from_csv (header :: rows) spec kf u dfn
          ≠ .error (.assertionSchemaMismatch miss add)) := by
  constructor
  · intro hne
    have hok : schemaOk header (spec.map FieldSpec.name) = false := by
      rw [Bool.eq_false_iff]
      intro h
      exact hne ((schemaOk_iff _ _).1 h)
    refine ⟨schemaMissing header (spec.map FieldSpec.name),
      schemaAdditional header (spec.map FieldSpec.name), ?_, ?_, ?_, ?_⟩
    · simp only [load_dataclass_dict_from_csv, metasOf_names, hok,
        Bool.false_eq_true, if_false]
    · intro x; exact mem_schemaMissing _ _ x
    · intro x; exact mem_schemaAdditional _ _ x
    · simp only [load_dataclass_dict_from_csv, metasOf_names, hok,
        Bool.false_eq_true, if_false]
  · intro hiff hdf miss add
    have hok : schemaOk header (spec.map FieldSpec.name) = true :=
      (schemaOk_iff _ _).2 hiff
    simp only [load_dataclass_dict_from_csv, metasOf_names, hok, if_true]
    exact loadRowsAux_ne_schema _ kf u
      (metasOf_decode_fn_sound header dfn spec hdf) rows [] miss add

/-- Witness for C5: the `Device` schema against a CSV whose second column
is `extra` instead of `name` fails with `missing = {name}` and
`additional = {extra}`; with the right header no mismatch error arises. -/
theorem claim_schema_mismatch_two_lists_witness :
    (∃ miss add,
      load_dataclass_dict_from_csv [["device_id", "extra"], ["1", "aria"]]
        deviceFields "device_id" true (default_decode jstub)
        = .error (.assertionSchemaMismatch miss add) ∧
      (∀ x, x ∈ miss ↔ x ∈ deviceFields.map FieldSpec.name ∧ x ∉ ["device_id", "extra"]) ∧
      (∀ x, x ∈ add ↔ x ∈ ["device_id", "extra"] ∧ x ∉ deviceFields.map FieldSpec.name) ∧
      load_dataclass_dict_from_csv [["device_id", "extra"], ["1", "aria"]]
        deviceFields "device_id" true (default_decode jstub)
        = load_dataclass_dict_from_csv [["device_id", "extra"]]
            deviceFields "device_id" true (default_decode jstub)) ∧
    (∀ miss add,
      load_dataclass_dict_from_csv [["device_id", "name"], ["1", "aria"]]
        deviceFields "device_id" true (default_decode jstub)
        ≠ .error (.assertionSchemaMismatch miss add)) :=
  ⟨(claim_schema_mismatch_two_lists ["device_id", "extra"] [["1", "aria"]]
      deviceFields "device_id" true (default_decode jstub)).1
    (by
      intro hiff
      have h2 := (hiff "extra").1 (by simp)
      simp [deviceFields] at h2),
   (claim_schema_mismatch_two_lists ["device_id", "name"] [["1", "aria"]]
      deviceFields "device_id" true (default_decode jstub)).2
    (fun x => Iff.rfl)
    (by
      intro f hf v t miss add
      have hnone : f.csv_decode_fn = Option.none := by
        fin_cases hf <;> rfl
      rw [hnone]
      exact default_decode_ne_schema jstub
        (fun s miss add hc => by simp [jstub] at hc) v t miss add)⟩

theorem dictGet_cons_pos (e : PyVal × List Record) (rest : Table) (k : PyVal)
    (he : e.1 = k) : dictGet (e :: rest) k = e.2 := by
  simp [dictGet, List.find?, he]

theorem dictGet_cons_neg (e : PyVal × List Record) (rest : Table) (k : PyVal)
    (he : e.1 ≠ k) : dictGet (e :: rest) k = dictGet rest k := by
  have hbe : (e.1 == k) = false := by simpa using he
  simp [dictGet, List.find?, hbe]

theorem dictAppend_cons_pos (e : PyVal × List Record) (rest : Table)
    (k : PyVal) (v : Record) (he : e.1 = k) :
    dictAppend (e :: rest) k v = (e.1, e.2 ++ [v]) :: rest := by
  simp [dictAppend, he]

theorem dictAppend_cons_neg (e : PyVal × List Record) (rest : Table)
    (k : PyVal) (v : Record) (he : e.1 ≠ k) :
    dictAppend (e :: rest) k v = e :: dictAppend rest k v := by
  have hbe : (e.1 == k) = false := by simpa using he
  simp [dictAppend, hbe]

theorem dictGet_nil (k : PyVal) : dictGet [] k = [] := rfl

theorem dictGet_dictAppend (t : Table) (k : PyVal) (v : Record) :
    dictGet (dictAppend t k v) k = dictGet t k ++ [v] := by
  induction t with
  | nil =>
    show dictGet [(k, [v])] k = dictGet [] k ++ [v]
    rw [dictGet_cons_pos _ _ _ rfl, dictGet_nil]
    rfl
  | cons e rest ih =>
    by_cases he : e.1 = k
    · rw [dictAppend_cons_pos _ _ _ _ he,
        dictGet_cons_pos (e.1, e.2 ++ [v]) rest k he, dictGet_cons_pos _ _ _ he]
    · rw [dictAppend_cons_neg _ _ _ _ he, dictGet_cons_neg _ _ _ he,
        dictGet_cons_neg _ _ _ he, ih]

theorem dictAppend_of_not_mem (t : Table) (k : PyVal) (v : Record)
    (h : k ∉ t.map Prod.fst) : dictAppend t k v = t ++ [(k, [v])] := by
  induction t with
  | nil => rfl
  | cons e rest ih =>
    simp only [List.map_cons, List.mem_cons, not_or] at h
    have he : e.1 ≠ k := fun hc => h.1 hc.symm
    rw [dictAppend_cons_neg _ _ _ _ he, ih h.2]
    rfl

theorem dictGet_of_not_mem (t : Table) (k : PyVal)
    (h : k ∉ t.map Prod.fst) : dictGet t k = [] := by
  induction t with
  | nil => rfl
  | cons e rest ih =>
    simp only [List.map_cons, List.mem_cons, not_or] at h
    have he : e.1 ≠ k := fun hc => h.1 hc.symm
    rw [dictGet_cons_neg _ _ _ he, ih h.2]

theorem dictGet_of_mem (t : Table) (k : PyVal)
    (h : k ∈ t.map Prod.fst) : (k, dictGet t k) ∈ t := by
  induction t with
  | nil => simp at h
  | cons e rest ih =>
    by_cases he : e.1 = k
    · rw [dictGet_cons_pos _ _ _ he]
      exact List.mem_cons.mpr (Or.inl (by rw [← he]))
    · rw [dictGet_cons_neg _ _ _ he]
      simp only [List.map_cons, List.mem_cons] at h
      rcases h with h | h
      · exact absurd h.symm he
      · exact List.mem_cons_of_mem _ (ih h)

theorem loadRowsAux_ok_singletons (metas : List (String × FieldMeta))
    (kf : String) :
    ∀ (rows : List (List String)) (out t : Table),
      (∀ e ∈ out, e.2.length = 1) →
      (out.map Prod.fst).Nodup →
      loadRowsAux metas kf true rows out = .ok t →
      ∀ e ∈ t, e.2.length = 1 := by
  intro rows
  induction rows with
  | nil =>
    intro out t h1 h2 hload
    unfold loadRowsAux at hload
    injection hload with h3
    exact h3 ▸ h1
  | cons row rest ih =>
    intro out t h1 h2 hload
    unfold loadRowsAux at hload
    split at hload
    · cases hload
    · rename_i obj heqobj
      split at hload
      · cases hload
      · rename_i k heqk
        dsimp only at hload
        split at hload
        · cases hload
        · rename_i hcheck
          have hlen : (dictGet (dictAppend out k obj) k).length = 1 := by
            simpa using hcheck
          by_cases hmem : k ∈ out.map Prod.fst
          · exfalso
            have hone : (dictGet out k).length = 1 := h1 _ (dictGet_of_mem out k hmem)
            rw [dictGet_dictAppend, List.length_append, hone] at hlen
            simp at hlen
          · have happ := dictAppend_of_not_mem out k obj hmem
            refine ih (dictAppend out k obj) t ?_ ?_ hload
            · intro e he
              rw [happ] at he
              rcases List.mem_append.mp he with he | he
              · exact h1 e he
              · simp only [List.mem_singleton] at he
                rw [he]
                rfl
            · rw [happ, List.map_append]
              exact List.nodup_append.mpr
                ⟨h2, List.nodup_singleton _, by simpa using hmem⟩

theorem loadRowsAux_dup (metas : List (String × FieldMeta)) (kf : String) :
    ∀ (rows : List (List String)) (out : Table) (ks : List PyVal),
      rowKeys metas kf rows = .ok ks →
      (∀ e ∈ out, e.2.length = 1) →
      (out.map Prod.fst).Nodup →
      ¬ (out.map Prod.fst ++ ks).Nodup →
      ∃ k, 2 ≤ (out.map Prod.fst ++ ks).count k ∧
        loadRowsAux metas kf true rows out
          = .error (.assertionDuplicateKey kf k) := by
  intro rows
  induction rows with
  | nil =>
    intro out ks hks h1 h2 hdup
    unfold rowKeys at hks
    injection hks with h3
    rw [← h3, List.append_nil] at hdup
    exact absurd h2 hdup
  | cons row rest ih =>
    intro out ks hks h1 h2 hdup
    unfold rowKeys at hks
    split at hks
    · cases hks
    · rename_i k0 heqk
      split at hks
      · cases hks
      · rename_i ks' heqks
        injection hks with h3
        subst h3
        unfold rowKey at heqk
        split at heqk
        · cases heqk
        · rename_i obj heqobj
          by_cases hmem : k0 ∈ out.map Prod.fst
          · have hone : (dictGet out k0).length = 1 := h1 _ (dictGet_of_mem out k0 hmem)
            have hlen : (dictGet (dictAppend out k0 obj) k0).length = 2 := by
              rw [dictGet_dictAppend, List.length_append, hone]
              rfl
            refine ⟨k0, ?_, ?_⟩
            · rw [List.count_append]
              have hc1 : 0 < (out.map Prod.fst).count k0 := List.count_pos_iff.mpr hmem
              have hc2 : 0 < (k0 :: ks').count k0 := by
                simp [List.count_cons_self]
              omega
            · unfold loadRowsAux
              rw [heqobj]
              dsimp only
              rw [heqk]
              dsimp only
              rw [if_pos]
              simp [hlen]
          · have happ := dictAppend_of_not_mem out k0 obj hmem
            have hlen1 : (dictGet (dictAppend out k0 obj) k0).length = 1 := by
              rw [dictGet_dictAppend, dictGet_of_not_mem out k0 hmem]
              rfl
            have h1' : ∀ e ∈ dictAppend out k0 obj, e.2.length = 1 := by
              intro e he
              rw [happ] at he
              rcases List.mem_append.mp he with he | he
              · exact h1 e he
              · simp only [List.mem_singleton] at he
                rw [he]
                rfl
            have h2' : ((dictAppend out k0 obj).map Prod.fst).Nodup := by
              rw [happ, List.map_append]
              exact List.nodup_append.mpr
                ⟨h2, List.nodup_singleton _, by simpa using hmem⟩
            have hdup' : ¬ (((dictAppend out k0 obj).map Prod.fst) ++ ks').Nodup := by
              rw [happ, List.map_append, List.append_assoc]
              simpa using hdup
            obtain ⟨k, hcount, herr⟩ := ih (dictAppend out k0 obj) ks' heqks h1' h2' hdup'
            refine ⟨k, ?_, ?_⟩
            · rw [happ, List.map_append, List.append_assoc] at hcount
              simpa using hcount
            · unfold loadRowsAux
              rw [heqobj]
              dsimp only
              rw [heqk]
              dsimp only
              rw [if_neg]
              · exact herr
              · simp [hlen1]

/-- C4: with `unique_per_key=True`, a CSV whose rows produce two equal
key-field values fails with the integrity error carrying the key field
and the offending (duplicated) key value, and a table is only ever
returned when every key maps to exactly one record — no partial table
escapes. -/
theorem claim_unique_key_integrity (header : List String)
    (rows : List (List String)) (spec : List FieldSpec) (kf : String)
    (dfn : String → PyType → Except PyErr PyVal) :
    (∀ t, load_dataclass_dict_from_csv (header :: rows) spec kf true dfn = .ok t →
      ∀ e ∈ t, e.2.length = 1)
    ∧ ((∀ x, x ∈ header ↔ x ∈ spec.map FieldSpec.name) →
      ∀ ks, rowKeys (metasOf header dfn spec) kf rows = .ok ks →
      ¬ ks.Nodup →
      ∃ k, 2 ≤ ks.count k ∧
        load_dataclass_dict_from_csv (header :: rows) spec kf true dfn
          = .error (.assertionDuplicateKey kf k)) := by
  constructor
  · intro t hload
    simp only [load_dataclass_dict_from_csv] at hload
    split at hload
    · exact loadRowsAux_ok_singletons _ kf rows [] t
        (fun e he => absurd he (List.not_mem_nil e)) List.nodup_nil hload
    · cases hload
  · intro hiff ks hks hdup
    have hok : schemaOk header (spec.map FieldSpec.name) = true :=
      (schemaOk_iff _ _).2 hiff
    simp only [load_dataclass_dict_from_csv, metasOf_names, hok, if_true]
    obtain ⟨k, hcount, herr⟩ :=
      loadRowsAux_dup (metasOf header dfn spec) kf rows [] ks hks
        (fun e he => absurd he (List.not_mem_nil e)) List.nodup_nil
        (by simpa using hdup)
    exact ⟨k, by simpa using hcount, herr⟩

/-- Witness for C4: two `Device` rows with `device_id = 1` fail with the
integrity error naming `device_id` and the duplicated key `1`. -/
theorem claim_unique_key_integrity_witness :
    ∃ k, 2 ≤ List.count k [PyVal.int 1, PyVal.int 1] ∧
      load_dataclass_dict_from_csv
        [["device_id", "name"], ["1", "aria"], ["1", "gopro"]]
        deviceFields "device_id" true (default_decode jstub)
        = .error (.assertionDuplicateKey "device_id" k) :=
  (claim_unique_key_integrity ["device_id", "name"]
      [["1", "aria"], ["1", "gopro"]] deviceFields "device_id"
      (default_decode jstub)).2
    (fun x => Iff.rfl)
    [PyVal.int 1, PyVal.int 1]
    (by decide)
    (by decide)

/-- C1 (code bug): on a manifest directory whose unique-keyed tables all
load successfully, the ego-exo assembler stores the loader's
key→list-of-records dicts *unchanged* — captures, objects,
physical_setting and participants come back as singleton-list tables,
never unwrapped to key→record — while the core assembler does unwrap its
unique-keyed `videos` table, contradicting the claimed (and type-annotated)
key→single-record exposure for `load_egoexo_manifest`. -/
theorem claim_unique_tables_unwrapped_code_bug :
    (load_egoexo_manifest jstub egoexoDir).map
        (fun m => (m.captures.isLists, m.captures.listLengths,
          m.objects.map TableView.isLists,
          m.physical_setting.map TableView.isLists,
          m.participants.map TableView.isLists,
          m.objects.map TableView.listLengths,
          m.physical_setting.map TableView.listLengths,
          m.participants.map TableView.listLengths))
      = .ok (true, [1], some true, some true, some true, some [1], some [1], some [1])
    ∧ (load_manifest jstub coreDir).map (fun m => m.videos.isLists)
      = .ok false := by
  constructor
  · rfl
  · rfl

theorem get?_eq_some_getD {α : Type} (l : List α) (n : Nat) (d : α)
    (h : n < l.length) : l.get? n = some (l.getD n d) := by
  rw [List.getD_eq_getElem?_getD, List.getElem?_eq_getElem h,
    List.get?_eq_getElem?, List.getElem?_eq_getElem h]
  rfl

theorem pairwise_getD_le (l : List Int)
    (hp : List.Pairwise (fun a b => a ≤ b) l) (i j : Nat) (hij : i ≤ j)
    (hj : j < l.length) : l.getD i 0 ≤ l.getD j 0 := by
  rcases Nat.lt_or_eq_of_le hij with hlt | heq
  · have hi : i < l.length := lt_trans hlt hj
    have hij2 := List.pairwise_iff_getElem.mp hp i j hi hj hlt
    rwa [List.getD_eq_getElem l 0 hi, List.getD_eq_getElem l 0 hj]
  · rw [heq]

theorem bisectLeft_eq (l : List Int) (x : Int) : ∀ (k : Nat), k ≤ l.length →
    (∀ j, j < k → l.getD j 0 < x) →
    (k < l.length → ¬ (l.getD k 0 < x)) →
    bisectLeft l x = k := by
  induction l with
  | nil =>
    intro k hk _ _
    have : k = 0 := Nat.le_zero.mp hk
    rw [this]
    rfl
  | cons a t ih =>
    intro k hk hlt hge
    cases k with
    | zero =>
      have hna : ¬ a < x := hge (Nat.succ_pos _)
      simp [bisectLeft, List.takeWhile_cons, hna]
    | succ k' =>
      have ha : a < x := hlt 0 (Nat.succ_pos _)
      have hk' : k' ≤ t.length := by
        simp only [List.length_cons] at hk
        omega
      have ht : bisectLeft t x = k' := by
        apply ih k' hk'
        · intro j hj
          have := hlt (j + 1) (Nat.succ_lt_succ hj)
          simpa using this
        · intro hcl
          have := hge (Nat.succ_lt_succ hcl)
          simpa using this
      simp only [bisectLeft, List.takeWhile_cons, decide_eq_true_eq] at *
      simp [ha, ht]

theorem bisectLeft_le (l : List Int) (x : Int) :
    ∀ (j : Nat), j < l.length → ¬ (l.getD j 0 < x) → bisectLeft l x ≤ j := by
  induction l with
  | nil => intro j hj _; exact absurd hj (Nat.not_lt_zero j)
  | cons a t ih =>
    intro j hj h
    cases j with
    | zero =>
      have hna : ¬ a < x := by simpa using h
      simp [bisectLeft, List.takeWhile_cons, hna]
    | succ j' =>
      by_cases ha : a < x
      · have := ih j' (by simpa using Nat.lt_of_succ_lt_succ hj) (by simpa using h)
        simp only [bisectLeft, List.takeWhile_cons, decide_eq_true_eq] at *
        simp [ha]
        omega
      · simp [bisectLeft, List.takeWhile_cons, ha]

theorem bisectLeft_pos (l : List Int) (x : Int) (a : Int) (t : List Int)
    (hl : l = a :: t) (h : a < x) : 1 ≤ bisectLeft l x := by
  subst hl
  simp [bisectLeft, List.takeWhile_cons, h]

theorem bisectLeft_le_length (l : List Int) (x : Int) :
    bisectLeft l x ≤ l.length :=
  (List.takeWhile_sublist _).length_le

theorem contsGet_isSome_iff {Cont : Type}
    (l : List (Int × String × Option Cont)) (k : Int) :
    (contsGet l k).isSome ↔ k ∈ l.map (fun e => e.1) := by
  constructor
  · intro h
    unfold contsGet at h
    cases hf : List.find? (fun e => e.1 == k) l with
    | none => rw [hf] at h; cases h
    | some e =>
      have hmem := List.mem_of_find?_eq_some hf
      have hkey := List.find?_some hf
      exact List.mem_map.mpr ⟨e, hmem, by simpa using hkey⟩
  · intro h
    obtain ⟨e, he, hk⟩ := List.mem_map.mp h
    have hs : (List.find? (fun e => e.1 == k) l).isSome :=
      List.find?_isSome.mpr ⟨e, he, by simpa using hk⟩
    obtain ⟨e2, he2⟩ := Option.isSome_iff_exists.mp hs
    unfold contsGet
    rw [he2]
    rfl

theorem contsGet_contsSet_self {Cont : Type}
    (l : List (Int × String × Option Cont)) (k : Int)
    (v : String × Option Cont) :
    contsGet (contsSet l k v) k = some v := by
  induction l with
  | nil => simp [contsSet, contsGet, List.find?]
  | cons e rest ih =>
    by_cases he : e.1 = k
    · have hbe : (e.1 == k) = true := by simpa using he
      simp [contsSet, contsGet, List.find?, hbe]
    · have hbe : (e.1 == k) = false := by simpa using he
      simpa [contsSet, contsGet, List.find?, hbe] using ih

theorem contsGet_contsSet_ne {Cont : Type}
    (l : List (Int × String × Option Cont)) (k : Int)
    (v : String × Option Cont) (j : Int) (hj : j ≠ k) :
    contsGet (contsSet l k v) j = contsGet l j := by
  induction l with
  | nil =>
    have hbe : (k == j) = false := by simpa using fun hc => hj hc.symm
    simp [contsSet, contsGet, List.find?, hbe]
  | cons e rest ih =>
    by_cases he : e.1 = k
    · have hbe : (e.1 == k) = true := by simpa using he
      have hbj : (k == j) = false := by simpa using fun hc => hj hc.symm
      have hbej : (e.1 == j) = false := by
        simpa using fun hc => hj (he ▸ hc).symm
      simp [contsSet, contsGet, List.find?, hbe, hbj, hbej, he]
    · have hbe : (e.1 == k) = false := by simpa using he
      by_cases hej : e.1 = j
      · have hbej : (e.1 == j) = true := by simpa using hej
        simp [contsSet, contsGet, List.find?, hbe, hbej]
      · have hbej : (e.1 == j) = false := by simpa using hej
        simpa [contsSet, contsGet, List.find?, hbe, hbej] using ih

theorem pyListGet_nonneg {α : Type} (l : List α) (i : Int) (h : 0 ≤ i) :
    pyListGet l i = l.get? i.toNat := by
  simp [pyListGet, h]

theorem pyListGet_int_ofNat {α : Type} (l : List α) (n : Nat) (d : α)
    (h : n < l.length) : pyListGet l (n : Int) = some (l.getD n d) := by
  rw [pyListGet_nonneg l _ (Int.ofNat_nonneg n)]
  simpa using get?_eq_some_getD l n d h

theorem mem_range_intCast (N : Nat) (k : Int) :
    k ∈ (List.range N).map (fun n : Nat => (n : Int)) ↔ 0 ≤ k ∧ k < (N : Int) := by
  constructor
  · intro h
    obtain ⟨n, hn, hnk⟩ := List.mem_map.mp h
    have hn' : n < N := List.mem_range.mp hn
    rw [← hnk]
    constructor
    · exact Int.ofNat_nonneg n
    · exact_mod_cast hn'
  · rintro ⟨h0, hN⟩
    have hc : ((k.toNat : Nat) : Int) = k := by omega
    rw [← hc]
    exact List.mem_map_of_mem (fun n : Nat => (n : Int))
      (List.mem_range.mpr (by omega))

/-- C2: with cumulative offsets `[0, c_1, ..., c_N]` and an in-range
global index `i`, `__getitem__` resolves the container index `c` with
`cumulative[c] ≤ i < cumulative[c+1]` (the rightmost entry `≤ i`, found
through the left bisection of `i + 1`) and delegates to that container at
local index `i - cumulative[c]`; in particular for sizes `[3, 5, 2]` in
sorted-path order, `__len__` is `10`, index `0` is container 0 local 0,
index `3` is container 1 local 0, index `9` is container 2 local 1. -/
theorem claim_getitem_bisect_resolution :
    (∀ (Cont Item : Type) (openCont : String → Cont)
        (contGet : Cont → Int → Item) (d : VideoDataset Cont) (i : Int)
        (c : Nat) (p : String) (copt : Option Cont),
      List.Pairwise (fun a b => a ≤ b) d.fs_cumsum →
      c + 1 < d.fs_cumsum.length →
      d.fs_cumsum.getD c 0 ≤ i →
      i < d.fs_cumsum.getD (c + 1) 0 →
      contsGet d.conts (c : Int) = some (p, copt) →
      ∃ conts',
        videoDatasetGetItem openCont contGet d i
          = .ok (contGet (copt.getD (openCont p)) (i - d.fs_cumsum.getD c 0),
              { d with conts := conts' }))
    ∧ videoDatasetInit ["c", "a", "b"] testOpen testLen Option.none Option.none
        = .ok testDS
    ∧ videoDatasetLen testDS = .ok 10
    ∧ videoDatasetGetItem testOpen testGet testDS 0 = .ok ((0, 0), testDS)
    ∧ videoDatasetGetItem testOpen testGet testDS 3 = .ok ((1, 0), testDS)
    ∧ videoDatasetGetItem testOpen testGet testDS 9 = .ok ((2, 1), testDS) := by
  refine ⟨?_, by decide, by decide, by decide, by decide, by decide⟩
  intro Cont Item openCont contGet d i c p copt hp hlen hlo hhi hc
  have hbis : bisectLeft d.fs_cumsum (i + 1) = c + 1 := by
    apply bisectLeft_eq
    · omega
    · intro j hj
      have hj' : j ≤ c := Nat.lt_succ_iff.mp hj
      have hmono := pairwise_getD_le d.fs_cumsum hp j c hj' (by omega)
      omega
    · intro hcl
      omega
  have hres : resolveIdx d i = (c : Int) := by
    unfold resolveIdx
    rw [hbis]
    push_cast
    ring
  have hbase : pyListGet d.fs_cumsum (c : Int) = some (d.fs_cumsum.getD c 0) :=
    pyListGet_int_ofNat _ _ _ (by omega)
  cases copt with
  | none =>
    refine ⟨contsSet d.conts (c : Int) (p, some (openCont p)), ?_⟩
    unfold videoDatasetGetItem
    dsimp only
    rw [hres, hc]
    dsimp only
    rw [contsGet_contsSet_self]
    dsimp only
    rw [hbase]
    rfl
  | some h0 =>
    refine ⟨d.conts, ?_⟩
    unfold videoDatasetGetItem
    dsimp only
    rw [hres, hc]
    dsimp only
    rw [hc]
    dsimp only
    rw [hbase]
    rfl

/-- Witness for C2: in the lazily-constructed `[3, 5, 2]` dataset, global
index 4 resolves to container 1 at local index `4 - 3`. -/
theorem claim_getitem_bisect_resolution_witness :
    ∃ conts',
      videoDatasetGetItem testOpen testGet testDSLazy 4
        = .ok (testGet ((Option.none).getD (testOpen "b"))
            (4 - testDSLazy.fs_cumsum.getD 1 0),
            { testDSLazy with conts := conts' }) :=
  claim_getitem_bisect_resolution.1 Nat (Nat × Int) testOpen testGet
    testDSLazy 4 1 "b" Option.none (by decide) (by decide) (by decide)
    (by decide) (by decide)

theorem bisectLeft_pos_of_ne (l : List Int) (x : Int) (hne : l ≠ [])
    (h : l.getD 0 0 < x) : 1 ≤ bisectLeft l x := by
  cases l with
  | nil => exact absurd rfl hne
  | cons a t => exact bisectLeft_pos _ x a t rfl (by simpa using h)

/-- C3: a global index outside `[0, total)` makes `__getitem__` fail with
an error delivered to the caller (the resolved container index falls
outside the handle dict, a `KeyError`), the failing call performs no
update of the dataset state, and on the very same state every in-range
index still succeeds. -/
theorem claim_getitem_out_of_range :
    ∀ (Cont Item : Type) (openCont : String → Cont)
      (contGet : Cont → Int → Item) (d : VideoDataset Cont),
      d.fs_cumsum.head? = some 0 →
      List.Pairwise (fun a b => a ≤ b) d.fs_cumsum →
      d.conts.map (fun e => e.1)
        = (List.range (d.fs_cumsum.length - 1)).map (fun n : Nat => (n : Int)) →
      ∀ i : Int,
        ((i < 0 ∨ d.fs_cumsum.getD (d.fs_cumsum.length - 1) 0 ≤ i) →
          videoDatasetGetItem openCont contGet d i = .error .keyError)
        ∧ (0 ≤ i → i < d.fs_cumsum.getD (d.fs_cumsum.length - 1) 0 →
          (videoDatasetGetItem openCont contGet d i).isOk = true) := by
  intro Cont Item openCont contGet d hhead hp hkeys i
  have hne : d.fs_cumsum ≠ [] := by
    intro h
    rw [h] at hhead
    cases hhead
  have hlen1 : 1 ≤ d.fs_cumsum.length := List.length_pos.mpr hne
  have hget0 : d.fs_cumsum.getD 0 0 = 0 := by
    cases hfs : d.fs_cumsum with
    | nil => exact absurd hfs hne
    | cons a t =>
      rw [hfs] at hhead
      simp only [List.head?_cons, Option.some.injEq] at hhead
      simp [hhead]
  have hkeyiff : ∀ k : Int, (contsGet d.conts k).isSome
      ↔ (0 ≤ k ∧ k < ((d.fs_cumsum.length - 1 : Nat) : Int)) := by
    intro k
    rw [contsGet_isSome_iff, hkeys, mem_range_intCast]
  constructor
  · intro hout
    rcases hout with hneg | hbig
    · have hb : bisectLeft d.fs_cumsum (i + 1) = 0 := by
        apply bisectLeft_eq _ _ 0 (Nat.zero_le _)
        · intro j hj
          exact absurd hj (Nat.not_lt_zero j)
        · intro _
          rw [hget0]
          omega
      have hres : resolveIdx d i = -1 := by
        unfold resolveIdx
        rw [hb]
        decide
      have hnone : contsGet d.conts (-1) = Option.none := by
        cases hg : contsGet d.conts (-1) with
        | none => rfl
        | some pc =>
          have hs := (hkeyiff (-1)).1 (by rw [hg]; rfl)
          omega
      unfold videoDatasetGetItem
      dsimp only
      rw [hres, hnone]
    · have hb : bisectLeft d.fs_cumsum (i + 1) = d.fs_cumsum.length := by
        apply bisectLeft_eq _ _ _ (le_refl _)
        · intro j hj
          have hmono := pairwise_getD_le d.fs_cumsum hp j
            (d.fs_cumsum.length - 1) (by omega) (by omega)
          omega
        · intro hcl
          exact absurd hcl (lt_irrefl _)
      have hres : resolveIdx d i = (d.fs_cumsum.length : Int) - 1 := by
        unfold resolveIdx
        rw [hb]
      have hnone : contsGet d.conts ((d.fs_cumsum.length : Int) - 1)
          = Option.none := by
        cases hg : contsGet d.conts ((d.fs_cumsum.length : Int) - 1) with
        | none => rfl
        | some pc =>
          have hs := (hkeyiff _).1 (by rw [hg]; rfl)
          omega
      unfold videoDatasetGetItem
      dsimp only
      rw [hres, hnone]
  · intro h0 htot
    have h1le : 1 ≤ bisectLeft d.fs_cumsum (i + 1) :=
      bisectLeft_pos_of_ne _ _ hne (by omega)
    have hub : bisectLeft d.fs_cumsum (i + 1) ≤ d.fs_cumsum.length - 1 := by
      apply bisectLeft_le _ _ _ (by omega)
      omega
    have hres : resolveIdx d i
        = ((bisectLeft d.fs_cumsum (i + 1) : Int)) - 1 := rfl
    have hsome : (contsGet d.conts
        ((bisectLeft d.fs_cumsum (i + 1) : Int) - 1)).isSome := by
      rw [hkeyiff]
      omega
    obtain ⟨pc, hpc⟩ := Option.isSome_iff_exists.mp hsome
    have hcast : ((bisectLeft d.fs_cumsum (i + 1) : Int) - 1)
        = ((bisectLeft d.fs_cumsum (i + 1) - 1 : Nat) : Int) := by omega
    have hbase := pyListGet_int_ofNat d.fs_cumsum
      (bisectLeft d.fs_cumsum (i + 1) - 1) 0 (by omega)
    rw [← hcast] at hbase
    obtain ⟨p, copt⟩ := pc
    unfold videoDatasetGetItem
    dsimp only
    rw [hres, hpc]
    dsimp only
    cases copt with
    | none =>
      rw [contsGet_contsSet_self]
      dsimp only
      rw [hbase]
      rfl
    | some h0c =>
      rw [hpc]
      dsimp only
      rw [hbase]
      rfl

/-- Witness for C3: in the `[3, 5, 2]` dataset (total 10), indices 10 and
-1 fail with `KeyError` while index 9 still succeeds on the same state. -/
theorem claim_getitem_out_of_range_witness :
    videoDatasetGetItem testOpen testGet testDS 10 = .error .keyError ∧
    videoDatasetGetItem testOpen testGet testDS (-1) = .error .keyError ∧
    (videoDatasetGetItem testOpen testGet testDS 9).isOk = true :=
  ⟨(claim_getitem_out_of_range Nat (Nat × Int) testOpen testGet testDS
      (by decide) (by decide) (by decide) 10).1 (Or.inr (by decide)),
   (claim_getitem_out_of_range Nat (Nat × Int) testOpen testGet testDS
      (by decide) (by decide) (by decide) (-1)).1 (Or.inl (by decide)),
   (claim_getitem_out_of_range Nat (Nat × Int) testOpen testGet testDS
      (by decide) (by decide) (by decide) 9).2 (by decide) (by decide)⟩

/-- C8: the container-opening function is called at most once per
container.  When the resolved container's handle is already cached,
`__getitem__` returns the very same dataset state and delegates to the
cached handle (no re-open, stable identity); on first access it opens the
container once, stores exactly that handle in the `conts` dict, and every
other container's entry is left untouched (no eviction). -/
theorem claim_lazy_open_once :
    ∀ (Cont Item : Type) (openCont : String → Cont)
      (contGet : Cont → Int → Item) (d : VideoDataset Cont) (i : Int)
      (p : String) (base : Int),
      (∀ h0 : Cont,
        contsGet d.conts (resolveIdx d i) = some (p, some h0) →
        pyListGet d.fs_cumsum (resolveIdx d i) = some base →
        videoDatasetGetItem openCont contGet d i
          = .ok (contGet h0 (i - base), d))
      ∧ (contsGet d.conts (resolveIdx d i) = some (p, Option.none) →
        pyListGet d.fs_cumsum (resolveIdx d i) = some base →
        videoDatasetGetItem openCont contGet d i
          = .ok (contGet (openCont p) (i - base),
              { d with conts :=
                  (contsSet d.conts (resolveIdx d i) (p, some (openCont p))) })
          ∧ ∀ j, j ≠ resolveIdx d i →
            contsGet (contsSet d.conts (resolveIdx d i)
              (p, some (openCont p))) j = contsGet d.conts j) := by
  intro Cont Item openCont contGet d i p base
  constructor
  · intro h0 hc hbase
    unfold videoDatasetGetItem
    dsimp only
    rw [hc]
    dsimp only
    rw [hc]
    dsimp only
    rw [hbase]
  · intro hc hbase
    constructor
    · unfold videoDatasetGetItem
      dsimp only
      rw [hc]
      dsimp only
      rw [contsGet_contsSet_self]
      dsimp only
      rw [hbase]
    · intro j hj
      exact contsGet_contsSet_ne _ _ _ j hj

/-- Witness for C8: in the eager `[3, 5, 2]` dataset index 4 reuses the
cached handle and leaves the state unchanged; in the lazy dataset index 4
opens container `"b"` once, caches it, and touches no other entry. -/
theorem claim_lazy_open_once_witness :
    videoDatasetGetItem testOpen testGet testDS 4
      = .ok (testGet 1 (4 - 3), testDS)
    ∧ (videoDatasetGetItem testOpen testGet testDSLazy 4
        = .ok (testGet (testOpen "b") (4 - 3),
            { testDSLazy with conts :=
                (contsSet testDSLazy.conts (resolveIdx testDSLazy 4)
                  ("b", some (testOpen "b"))) })
        ∧ ∀ j, j ≠ resolveIdx testDSLazy 4 →
          contsGet (contsSet testDSLazy.conts (resolveIdx testDSLazy 4)
            ("b", some (testOpen "b"))) j = contsGet testDSLazy.conts j) :=
  ⟨(claim_lazy_open_once Nat (Nat × Int) testOpen testGet testDS 4 "b" 3).1
      1 (by decide) (by decide),
   (claim_lazy_open_once Nat (Nat × Int) testOpen testGet testDSLazy 4 "b" 3).2
      (by decide) (by decide)⟩

theorem cumAux_length : ∀ (counts : List Nat) (acc : Int),
    (cumAux acc counts).length = counts.length := by
  intro counts
  induction counts with
  | nil => intro acc; rfl
  | cons n ns ih => intro acc; simp [cumAux, ih]

theorem cum_diff : ∀ (counts : List Nat) (acc : Int) (c : Nat),
    c < counts.length →
    (acc :: cumAux acc counts).getD (c + 1) 0
      - (acc :: cumAux acc counts).getD c 0 = (counts.getD c 0 : Int) := by
  intro counts
  induction counts with
  | nil => intro acc c hc; exact absurd hc (Nat.not_lt_zero c)
  | cons n ns ih =>
    intro acc c hc
    cases c with
    | zero =>
      simp [cumAux]
    | succ c' =>
      have := ih (acc + n) c' (Nat.lt_of_succ_lt_succ hc)
      simpa [cumAux] using this

theorem cumsumTable_spec (counts : List Nat) :
    (cumsumTable counts).length = counts.length + 1 ∧
    (cumsumTable counts).getD 0 0 = 0 ∧
    ∀ (c : Nat), c < counts.length →
      (cumsumTable counts).getD (c + 1) 0 - (cumsumTable counts).getD c 0
        = (counts.getD c 0 : Int) := by
  refine ⟨by simp [cumsumTable, cumAux_length], rfl, ?_⟩
  intro c hc
  exact cum_diff counts 0 c hc

theorem getD_map {α β : Type} (l : List α) (f : α → β) (c : Nat) (d : β)
    (hc : c < l.length) :
    (l.map f).getD c d = f (l.get ⟨c, hc⟩) := by
  rw [List.getD_eq_getElem _ _ (by simpa using hc)]
  simp [List.getElem_map, List.get_eq_getElem]

theorem mem_orderedInsertStr (x : String) (l : List String) (y : String) :
    y ∈ orderedInsertStr x l ↔ y = x ∨ y ∈ l := by
  induction l with
  | nil => simp [orderedInsertStr]
  | cons a t ih =>
    unfold orderedInsertStr
    split
    · simp
    · simp only [List.mem_cons, ih]
      tauto

theorem mem_pySortStrings (ps : List String) (y : String) :
    y ∈ pySortStrings ps ↔ y ∈ ps := by
  induction ps with
  | nil => simp [pySortStrings]
  | cons p t ih =>
    unfold pySortStrings
    rw [mem_orderedInsertStr, ih]
    simp

theorem mapCounts_eq (p2n : List (String × Nat)) :
    ∀ (ps : List String), (∀ p ∈ ps, (p2nGet p2n p).isSome) →
    mapCounts p2n ps = .ok (ps.map (fun p => (p2nGet p2n p).getD 0)) := by
  intro ps
  induction ps with
  | nil => intro _; rfl
  | cons p t ih =>
    intro hc
    obtain ⟨n, hn⟩ := Option.isSome_iff_exists.mp (hc p (List.mem_cons_self _ _))
    unfold mapCounts
    rw [hn, ih (fun q hq => hc q (List.mem_cons_of_mem _ hq))]
    simp [hn]

/-- C6 counterexample: with configured maximum 1 and a precomputed count
of 5 for the single path, the cumulative offset table is `[0, 5]` — the
contributed entry is the raw count 5, not `min 5 1 = 1` as the claim
states for the precomputed-mapping construction mode. -/
theorem claim_cumsum_capped_counterexample :
    (@videoDatasetInit Unit ["a"] (fun _ => ()) (fun _ => 1)
        (some 1) (some [("a", 5)])).map (fun d => d.fs_cumsum) = .ok [0, 5]
    ∧ ¬ ((5 : Int) - 0 = ((min 5 1 : Nat) : Int)) := by
  constructor
  · decide
  · decide

/-- C6 (amended): in eager construction mode every increment of the
cumulative offset table is `min(len(container), max)` when a truthy
(non-`None`, non-zero) maximum is configured and the raw length
otherwise, taken in lexicographically sorted path order; in
precomputed-mapping mode the supplied per-path counts are used *without*
applying the configured maximum, in the same sorted order.  The trailing
conjuncts pin down the truthiness of the cap: `None` and `0` leave a
count of 5 uncapped, while a configured maximum of 1 caps it. -/
theorem claim_cumsum_entries (Cont : Type) (openCont : String → Cont)
    (contLen : Cont → Nat) (paths : List String) (maxF : Option Nat)
    (p2n : List (String × Nat)) :
    (∃ d, videoDatasetInit paths openCont contLen maxF Option.none = .ok d ∧
      d.fs_cumsum.length = (pySortStrings paths).length + 1 ∧
      d.fs_cumsum.getD 0 0 = 0 ∧
      ∀ (c : Nat) (hc : c < (pySortStrings paths).length),
        d.fs_cumsum.getD (c + 1) 0 - d.fs_cumsum.getD c 0
          = (capCount maxF (contLen (openCont
              ((pySortStrings paths).get ⟨c, hc⟩))) : Int))
    ∧ ((∀ p ∈ paths, (p2nGet p2n p).isSome) →
      ∃ d, videoDatasetInit paths openCont contLen maxF (some p2n) = .ok d ∧
        d.fs_cumsum.length = (pySortStrings paths).length + 1 ∧
        d.fs_cumsum.getD 0 0 = 0 ∧
        ∀ (c : Nat) (hc : c < (pySortStrings paths).length),
          d.fs_cumsum.getD (c + 1) 0 - d.fs_cumsum.getD c 0
            = (((p2nGet p2n ((pySortStrings paths).get ⟨c, hc⟩)).getD 0 : Nat) : Int))
    ∧ (capCount Option.none 5 = 5 ∧ capCount (some 0) 5 = 5
      ∧ capCount (some 1) 5 = 1) := by
  refine ⟨?_, ?_, by decide, by decide, by decide⟩
  · refine ⟨_, rfl, ?_, ?_, ?_⟩
    · simp [cumsumTable, cumAux_length]
    · rfl
    · intro c hc
      have h1 : c < ((pySortStrings paths).map
          (fun p => (p, openCont p))).length := by simpa using hc
      have h2 : c < (((pySortStrings paths).map (fun p => (p, openCont p))).map
          (fun h => capCount maxF (contLen h.2))).length := by simpa using hc
      have hd := cum_diff (((pySortStrings paths).map (fun p => (p, openCont p))).map
          (fun h => capCount maxF (contLen h.2))) 0 c (by simpa using hc)
      rw [show (cumsumTable (((pySortStrings paths).map (fun p => (p, openCont p))).map
          (fun h => capCount maxF (contLen h.2))))
        = 0 :: cumAux 0 (((pySortStrings paths).map (fun p => (p, openCont p))).map
          (fun h => capCount maxF (contLen h.2))) from rfl] at *
      rw [hd, getD_map _ _ c 0 h1]
      congr 2
      simp [List.get_eq_getElem, List.getElem_map]
  · intro hcover
    have hcover' : ∀ p ∈ pySortStrings paths, (p2nGet p2n p).isSome := by
      intro p hp
      exact hcover p ((mem_pySortStrings paths p).1 hp)
    have hmc := mapCounts_eq p2n (pySortStrings paths) hcover'
    obtain ⟨d, hd, hdc⟩ : ∃ d,
        videoDatasetInit paths openCont contLen maxF (some p2n) = .ok d ∧
        d.fs_cumsum = cumsumTable ((pySortStrings paths).map
          (fun p => (p2nGet p2n p).getD 0)) := by
      unfold videoDatasetInit
      dsimp only
      rw [hmc]
      exact ⟨_, rfl, rfl⟩
    refine ⟨d, hd, ?_, ?_, ?_⟩
    · rw [hdc]
      simp [cumsumTable, cumAux_length]
    · rw [hdc]
      rfl
    · intro c hc
      have h1 : c < ((pySortStrings paths).map
          (fun p => (p2nGet p2n p).getD 0)).length := by simpa using hc
      have hdiff := cum_diff ((pySortStrings paths).map
          (fun p => (p2nGet p2n p).getD 0)) 0 c h1
      rw [hdc]
      rw [show (cumsumTable ((pySortStrings paths).map
          (fun p => (p2nGet p2n p).getD 0)))
        = 0 :: cumAux 0 ((pySortStrings paths).map
          (fun p => (p2nGet p2n p).getD 0)) from rfl]
      rw [hdiff, getD_map _ _ c 0 hc]

/-- Witness for C6: the single-path dataset with mapping `a ↦ 5` yields
the uncapped table `[0, 5]` through the amended characterisation. -/
theorem claim_cumsum_entries_witness :
    ∃ d, @videoDatasetInit Unit ["a"] (fun _ => ()) (fun _ => 1)
        (some 1) (some [("a", 5)]) = .ok d ∧
      d.fs_cumsum.length = (pySortStrings ["a"]).length + 1 ∧
      d.fs_cumsum.getD 0 0 = 0 ∧
      ∀ (c : Nat) (hc : c < (pySortStrings ["a"]).length),
        d.fs_cumsum.getD (c + 1) 0 - d.fs_cumsum.getD c 0
          = (((p2nGet [("a", 5)] ((pySortStrings ["a"]).get ⟨c, hc⟩)).getD 0 : Nat) : Int) :=
  (claim_cumsum_entries Unit (fun _ => ()) (fun _ => 1) ["a"] (some 1)
    [("a", 5)]).2.1 (by decide)
